import Mathlib

/-!
# Shallow embedding of `src/weather_app.tsx`

The repository is a single client-side React component.  We embed the parts
of it that the specification's claims are about:

* the coordinate-input classifier `isLatLonInput` / `parseLatLon`
  (the regex `^\s*(-?\d{1,2}(?:\.\d+)?)[,\s]+(-?\d{1,3}(?:\.\d+)?)\s*$`
  applied to the trimmed query, plus the `|lat| > 90 || |lon| > 180` bounds
  check that only `parseLatLon` performs);
* the forecast shaper `fiveDay` (zip of the parallel daily arrays by index,
  truncated to the first 5 entries);
* the stateful pipeline `handleSubmit` / `resolveAndFetch` /
  `fetchSuggestions`, modelled as lists of primitive effects (state writes
  and issued network requests) folded over an explicit component state.

Strings are modelled as `List Char` (an ASCII-flavoured model of JS strings);
JS numbers parsed from decimal literals are modelled as exact rationals
(`ℚ`); network outcomes are an explicit oracle datatype.  Each `await`
boundary in the source is a suspension point, which the effect-list model
makes explicit by splitting an async function into the effects before the
response arrives and the effects after it.
-/

namespace WeatherApp

/-- The ASCII whitespace characters: the common core of what JS `\s` matches
and `String.prototype.trim` removes. -/
def isWs (c : Char) : Bool :=
  c = ' ' || c = '\t' || c = '\n' || c = '\r' || c = '\x0b' || c = '\x0c'

/-- The regex character class `[,\s]`: a comma or whitespace. -/
def isSep (c : Char) : Bool := c = ',' || isWs c

/-- JS `String.prototype.trim`: drop whitespace from both ends. -/
def trim (cs : List Char) : List Char :=
  ((cs.dropWhile isWs).reverse.dropWhile isWs).reverse

/-- Numeric value of a string of decimal digits (most significant first). -/
def digitsVal (ds : List Char) : ℕ :=
  ds.foldl (fun n c => 10 * n + (c.toNat - 48)) 0

/-- An exact decimal literal, as produced by JS `parseFloat` on a captured
group of the coordinate regex: the value is `mant / 10 ^ fracLen`.  We keep
the literal exact (a rational) rather than rounding it to a binary float;
the claims under verification are about the decimal pattern and the bounds
check, not about float rounding. -/
structure DecNum where
  mant : ℤ
  fracLen : ℕ
deriving DecidableEq, Repr

/-- The rational value of an exact decimal literal. -/
def DecNum.toRat (d : DecNum) : ℚ := (d.mant : ℚ) / 10 ^ d.fracLen

/-- Executable test for `bound < |value|`, the shape of the source's
`Math.abs(lat) > 90` check, carried out on the exact representation. -/
def DecNum.absGt (d : DecNum) (bound : ℕ) : Bool :=
  decide (bound * 10 ^ d.fracLen < d.mant.natAbs)

/-- The regex fragment `\d{1,maxD}(?:\.\d+)?` as a deterministic parser:
take the maximal run of digits (the characters allowed to follow the run
in the surrounding regex are never digits, so the greedy run must be
maximal), require its length in `[1, maxD]`, then consume a fraction
exactly when a dot immediately followed by a digit is present (when a dot
is not followed by a digit, the optional regex group fails and leaves the
dot unconsumed).  Returns the exact decimal value of the captured literal
and the unconsumed rest. -/
def parseUnsigned (maxD : ℕ) (cs : List Char) : Option (DecNum × List Char) :=
  let ds := cs.takeWhile Char.isDigit
  let rest1 := cs.dropWhile Char.isDigit
  if ds.length = 0 ∨ maxD < ds.length then none
  else if rest1.head? = some '.' ∧ ((rest1.drop 1).takeWhile Char.isDigit) ≠ [] then
    let fd := (rest1.drop 1).takeWhile Char.isDigit
    some (⟨(digitsVal ds * 10 ^ fd.length + digitsVal fd : ℕ), fd.length⟩,
          (rest1.drop 1).dropWhile Char.isDigit)
  else some (⟨(digitsVal ds : ℕ), 0⟩, rest1)

/-- The regex fragment `-?\d{1,maxD}(?:\.\d+)?`: an optional leading minus
sign (which, when present, must be consumed, since a digit cannot match
`-`), then an unsigned decimal literal. -/
def parseNumber (maxD : ℕ) (cs : List Char) : Option (DecNum × List Char) :=
  if cs.head? = some '-' then
    (parseUnsigned maxD (cs.drop 1)).map (fun p => (⟨-p.1.mant, p.1.fracLen⟩, p.2))
  else parseUnsigned maxD cs

/-- Tests whether the list starts with a `[,\s]` character. -/
def headIsSep (l : List Char) : Bool :=
  match l with
  | c :: _ => isSep c
  | [] => false

/-- The full regex
`^\s*(-?\d{1,2}(?:\.\d+)?)[,\s]+(-?\d{1,3}(?:\.\d+)?)\s*$` applied to
`q.trim()`, returning the two captured groups as rationals.  The separator
run and both digit runs are consumed maximally, which agrees with the
backtracking regex because the first character a following fragment can
match is never a character of the preceding class. -/
def matchLatLon (q : List Char) : Option (DecNum × DecNum) :=
  match parseNumber 2 ((trim q).dropWhile isWs) with
  | none => none
  | some (lat, cs1) =>
    if headIsSep cs1 then
      match parseNumber 3 (cs1.dropWhile isSep) with
      | none => none
      | some (lon, cs2) =>
        if (cs2.dropWhile isWs).isEmpty then some (lat, lon) else none
    else none

/-- The source's `isLatLonInput`: the regex matches (no bounds check). -/
def isLatLonInput (q : List Char) : Bool := (matchLatLon q).isSome

/-- The source's `parseLatLon`: the regex match followed by the
`Math.abs(lat) > 90 || Math.abs(lon) > 180` rejection, on the exact
representation of the two captured literals. -/
def parseLatLon (q : List Char) : Option (DecNum × DecNum) :=
  match matchLatLon q with
  | none => none
  | some (lat, lon) =>
    if lat.absGt 90 || lon.absGt 180 then none else some (lat, lon)

/-- The classifier `parseLatLon` seen at the level of rational values: the pair
`{lat, lon}` of numbers the source hands to `resolveAndFetch`. -/
def parseLatLonQ (q : List Char) : Option (ℚ × ℚ) :=
  (parseLatLon q).map (fun p => (p.1.toRat, p.2.toRat))

/-! ### Specification-side description of the coordinate pattern

`NumLit` and `SepRun` state the spec's wording — "optional sign, 1-2
integer digits, optional fraction", "a comma-or-space separator" — as a
declarative decomposition of the trimmed string, independent of the
deterministic parser above.  `fd = []` encodes an absent fraction. -/

/-- A nonempty run of comma-or-whitespace characters: the separator. -/
def SepRun (s : List Char) : Prop := s ≠ [] ∧ ∀ c ∈ s, isSep c = true

/-- Says that `s` is a decimal literal "optional sign, then 1..maxD integer digits,
then an optional dot-plus-digits fraction", of rational value `v`. -/
def NumLit (maxD : ℕ) (s : List Char) (v : ℚ) : Prop :=
  ∃ (neg : Bool) (ds fd : List Char),
    s = (if neg then ['-'] else []) ++ ds ++ (if fd = [] then [] else '.' :: fd) ∧
    ds ≠ [] ∧ ds.length ≤ maxD ∧
    (∀ c ∈ ds, c.isDigit = true) ∧ (∀ c ∈ fd, c.isDigit = true) ∧
    v = (if neg then (-1 : ℚ) else 1) *
          ((digitsVal ds : ℚ) + (digitsVal fd : ℚ) / 10 ^ fd.length)

/-! ### List facts used to relate the deterministic parser to the pattern -/

theorem takeWhile_dropWhile_append (p : Char → Bool) (l1 l2 : List Char)
    (h1 : ∀ c ∈ l1, p c = true) (h2 : ∀ c, l2.head? = some c → p c = false) :
    (l1 ++ l2).takeWhile p = l1 ∧ (l1 ++ l2).dropWhile p = l2 := by
  induction l1 with
  | nil =>
    simp only [List.nil_append]
    cases l2 with
    | nil => simp
    | cons c t =>
      have hc := h2 c rfl
      simp [List.takeWhile_cons, List.dropWhile_cons, hc]
  | cons a t ih =>
    have ha := h1 a (List.mem_cons_self a t)
    have iht := ih (fun c hc => h1 c (List.mem_cons_of_mem a hc))
    simp only [List.cons_append, List.takeWhile_cons, List.dropWhile_cons, ha, if_true]
    exact ⟨by rw [iht.1], iht.2⟩

theorem head?_dropWhile_not (p : Char → Bool) (l : List Char) {c : Char}
    (h : (l.dropWhile p).head? = some c) : p c = false := by
  induction l with
  | nil => simp at h
  | cons a t ih =>
    rw [List.dropWhile_cons] at h
    by_cases hp : p a = true
    · rw [if_pos hp] at h; exact ih h
    · rw [if_neg hp] at h
      simp only [List.head?_cons, Option.some.injEq] at h
      subst h
      exact Bool.eq_false_iff.mpr hp

theorem dropWhile_of_head (p : Char → Bool) (l : List Char)
    (h : ∀ c, l.head? = some c → p c = false) : l.dropWhile p = l := by
  cases l with
  | nil => rfl
  | cons a t => rw [List.dropWhile_cons, if_neg (by simp [h a rfl])]

theorem getLast?_dropWhile (p : Char → Bool) (l : List Char) (h : l.dropWhile p ≠ []) :
    (l.dropWhile p).getLast? = l.getLast? := by
  induction l with
  | nil => simp at h
  | cons a t ih =>
    rw [List.dropWhile_cons] at h ⊢
    by_cases hp : p a = true
    · rw [if_pos hp] at h ⊢
      have ht : t ≠ [] := by
        intro he; subst he; simp [List.dropWhile] at h
      rw [ih h]
      cases t with
      | nil => exact absurd rfl ht
      | cons b u => rw [List.getLast?_cons_cons]
    · rw [if_neg hp]

theorem trim_getLast_not_ws (q : List Char) {c : Char}
    (h : (trim q).getLast? = some c) : isWs c = false := by
  unfold trim at h
  rw [List.getLast?_reverse] at h
  exact head?_dropWhile_not isWs _ h

theorem trim_head_not_ws (q : List Char) {c : Char}
    (h : (trim q).head? = some c) : isWs c = false := by
  unfold trim at h
  rw [List.head?_reverse] at h
  have hne : (q.dropWhile isWs).reverse.dropWhile isWs ≠ [] := by
    intro he; rw [he] at h; simp at h
  rw [getLast?_dropWhile isWs _ hne, List.getLast?_reverse] at h
  exact head?_dropWhile_not isWs _ h

theorem dropWhile_trim (q : List Char) : (trim q).dropWhile isWs = trim q :=
  dropWhile_of_head isWs _ (fun _ hc => trim_head_not_ws q hc)

/-! ### Character-class facts -/

theorem isSep_spec (c : Char) (h : isSep c = true) :
    c.isDigit = false ∧ c ≠ '.' ∧ c ≠ '-' := by
  have hc : c = ',' ∨ c = ' ' ∨ c = '\t' ∨ c = '\n' ∨ c = '\r' ∨ c = '\x0b' ∨ c = '\x0c' := by
    simp only [isSep, isWs, Bool.or_eq_true, decide_eq_true_eq] at h
    tauto
  rcases hc with rfl | rfl | rfl | rfl | rfl | rfl | rfl <;>
    exact ⟨by decide, by decide, by decide⟩

theorem digit_not_sep (c : Char) (h : c.isDigit = true) : isSep c = false := by
  cases hs : isSep c with
  | false => rfl
  | true => rw [(isSep_spec c hs).1] at h; exact absurd h (by simp)

/-! ### Exact-value facts about `DecNum` -/

theorem DecNum.toRat_mk (a b k : ℕ) :
    DecNum.toRat ⟨(a * 10 ^ k + b : ℕ), k⟩ = (a : ℚ) + (b : ℚ) / 10 ^ k := by
  unfold DecNum.toRat
  have h10 : (10 : ℚ) ^ k ≠ 0 := by positivity
  push_cast
  field_simp

theorem DecNum.toRat_neg_mant (m : ℤ) (k : ℕ) :
    DecNum.toRat ⟨-m, k⟩ = -DecNum.toRat ⟨m, k⟩ := by
  unfold DecNum.toRat; push_cast; ring

theorem DecNum.absGt_iff (d : DecNum) (b : ℕ) :
    d.absGt b = true ↔ (b : ℚ) < |d.toRat| := by
  unfold DecNum.absGt DecNum.toRat
  rw [decide_eq_true_eq]
  have h10 : (0 : ℚ) < 10 ^ d.fracLen := by positivity
  rw [abs_div, abs_of_pos h10, lt_div_iff₀ h10, ← Int.cast_abs, ← Int.cast_natAbs]
  exact_mod_cast Iff.rfl

/-! ### The deterministic parser agrees with the declarative pattern -/

theorem parseUnsigned_complete (maxD : ℕ) (ds fd rest : List Char)
    (hds : ds ≠ []) (hlen : ds.length ≤ maxD)
    (hdsd : ∀ c ∈ ds, c.isDigit = true) (hfdd : ∀ c ∈ fd, c.isDigit = true)
    (hrest : ∀ c, rest.head? = some c → c.isDigit = false ∧ c ≠ '.') :
    parseUnsigned maxD (ds ++ (if fd = [] then [] else '.' :: fd) ++ rest) =
      some (⟨(digitsVal ds * 10 ^ fd.length + digitsVal fd : ℕ), fd.length⟩, rest) := by
  have hcond : ¬(ds.length = 0 ∨ maxD < ds.length) := by
    push_neg
    exact ⟨fun h0 => hds (List.length_eq_zero.mp h0), hlen⟩
  by_cases hfd : fd = []
  · subst hfd
    rw [if_pos rfl, List.append_nil]
    have hsplit := takeWhile_dropWhile_append Char.isDigit ds rest hdsd
      (fun c hc => (hrest c hc).1)
    unfold parseUnsigned
    simp only [hsplit.1, hsplit.2]
    rw [if_neg hcond, if_neg (by rintro ⟨h1, -⟩; exact (hrest _ h1).2 rfl)]
    simp [digitsVal]
  · rw [if_neg hfd]
    have hsplit := takeWhile_dropWhile_append Char.isDigit ds ('.' :: (fd ++ rest)) hdsd
      (fun c hc => by
        simp only [List.head?_cons, Option.some.injEq] at hc; subst hc; decide)
    have hsplit2 := takeWhile_dropWhile_append Char.isDigit fd rest hfdd
      (fun c hc => (hrest c hc).1)
    have harr : ds ++ '.' :: fd ++ rest = ds ++ '.' :: (fd ++ rest) := by simp
    rw [harr]
    unfold parseUnsigned
    simp only [hsplit.1, hsplit.2, List.head?_cons, List.drop_one, List.tail_cons,
      hsplit2.1, hsplit2.2]
    rw [if_neg hcond, if_pos ⟨trivial, hfd⟩]

theorem parseUnsigned_sound (maxD : ℕ) (cs : List Char) (d : DecNum) (rest : List Char)
    (h : parseUnsigned maxD cs = some (d, rest)) :
    ∃ ds fd, cs = ds ++ (if fd = [] then [] else '.' :: fd) ++ rest ∧
      ds ≠ [] ∧ ds.length ≤ maxD ∧ (∀ c ∈ ds, c.isDigit = true) ∧
      (∀ c ∈ fd, c.isDigit = true) ∧
      d = ⟨(digitsVal ds * 10 ^ fd.length + digitsVal fd : ℕ), fd.length⟩ := by
  unfold parseUnsigned at h
  by_cases h0 : (cs.takeWhile Char.isDigit).length = 0 ∨ maxD < (cs.takeWhile Char.isDigit).length
  · rw [if_pos h0] at h; exact absurd h (by simp)
  rw [if_neg h0] at h
  push_neg at h0
  have hds_ne : cs.takeWhile Char.isDigit ≠ [] :=
    fun he => h0.1 (by rw [he]; rfl)
  have hds_le : (cs.takeWhile Char.isDigit).length ≤ maxD := h0.2
  have hds_dig : ∀ c ∈ cs.takeWhile Char.isDigit, c.isDigit = true :=
    fun c hc => List.mem_takeWhile_imp hc
  have hcs : cs = cs.takeWhile Char.isDigit ++ cs.dropWhile Char.isDigit :=
    (List.takeWhile_append_dropWhile Char.isDigit cs).symm
  by_cases hdot : (cs.dropWhile Char.isDigit).head? = some '.' ∧
      ((cs.dropWhile Char.isDigit).drop 1).takeWhile Char.isDigit ≠ []
  · rw [if_pos hdot] at h
    simp only [Option.some.injEq, Prod.mk.injEq] at h
    obtain ⟨hd, hrest⟩ := h
    refine ⟨cs.takeWhile Char.isDigit,
      ((cs.dropWhile Char.isDigit).drop 1).takeWhile Char.isDigit, ?_, hds_ne, hds_le,
      hds_dig, fun c hc => List.mem_takeWhile_imp hc, hd.symm⟩
    rw [if_neg hdot.2, ← hrest]
    have hdw : cs.dropWhile Char.isDigit =
        '.' :: (cs.dropWhile Char.isDigit).drop 1 := by
      cases he : cs.dropWhile Char.isDigit with
      | nil => rw [he] at hdot; exact absurd hdot.1 (by simp)
      | cons a t =>
        rw [he] at hdot
        simp only [List.head?_cons, Option.some.injEq] at hdot
        simp [hdot.1]
    conv_lhs => rw [hcs, hdw]
    rw [← List.takeWhile_append_dropWhile Char.isDigit
      ((cs.dropWhile Char.isDigit).drop 1)]
    simp
  · rw [if_neg hdot] at h
    simp only [Option.some.injEq, Prod.mk.injEq] at h
    obtain ⟨hd, hrest⟩ := h
    refine ⟨cs.takeWhile Char.isDigit, [], ?_, hds_ne, hds_le, hds_dig, by simp, ?_⟩
    · rw [if_pos rfl, List.append_nil, ← hrest]
      exact hcs
    · rw [← hd]
      simp [digitsVal]

theorem NumLit_head (maxD : ℕ) (s : List Char) (v : ℚ) (h : NumLit maxD s v) :
    ∃ c t, s = c :: t ∧ isSep c = false ∧ isWs c = false ∧
      (c = '-' ∨ c.isDigit = true) := by
  obtain ⟨neg, ds, fd, hs, hne, -, hdsd, -, -⟩ := h
  cases neg with
  | true =>
    exact ⟨'-', ds ++ (if fd = [] then [] else '.' :: fd), by simp [hs], by decide,
      by decide, Or.inl rfl⟩
  | false =>
    cases ds with
    | nil => exact absurd rfl hne
    | cons c t0 =>
      have hcd : c.isDigit = true := hdsd c (by simp)
      refine ⟨c, t0 ++ (if fd = [] then [] else '.' :: fd), by simp [hs],
        digit_not_sep c hcd, ?_, Or.inr hcd⟩
      cases hw : isWs c with
      | false => rfl
      | true =>
        have := (isSep_spec c (by simp [isSep, hw])).1
        rw [this] at hcd; exact absurd hcd (by simp)

theorem parseNumber_complete (maxD : ℕ) (s rest : List Char) (v : ℚ)
    (hnum : NumLit maxD s v)
    (hrest : ∀ c, rest.head? = some c → c.isDigit = false ∧ c ≠ '.') :
    ∃ d : DecNum, parseNumber maxD (s ++ rest) = some (d, rest) ∧ d.toRat = v := by
  obtain ⟨neg, ds, fd, hs, hne, hle, hdsd, hfdd, hv⟩ := hnum
  have hu := parseUnsigned_complete maxD ds fd rest hne hle hdsd hfdd hrest
  cases neg with
  | false =>
    have hs' : s = ds ++ (if fd = [] then [] else '.' :: fd) := by simpa using hs
    refine ⟨⟨(digitsVal ds * 10 ^ fd.length + digitsVal fd : ℕ), fd.length⟩, ?_, ?_⟩
    · unfold parseNumber
      rw [if_neg]
      · rw [hs', List.append_assoc, ← List.append_assoc]
        exact hu
      · intro hh
        cases ds with
        | nil => exact absurd rfl hne
        | cons c t0 =>
          have hcd : c.isDigit = true := hdsd c (by simp)
          rw [hs'] at hh
          simp only [List.cons_append, List.head?_cons, Option.some.injEq] at hh
          rw [hh] at hcd
          exact absurd hcd (by decide)
    · rw [hv, DecNum.toRat_mk]
      norm_num
  | true =>
    have hs' : s = '-' :: (ds ++ (if fd = [] then [] else '.' :: fd)) := by simpa using hs
    refine ⟨⟨-(digitsVal ds * 10 ^ fd.length + digitsVal fd : ℕ), fd.length⟩, ?_, ?_⟩
    · unfold parseNumber
      rw [hs']
      rw [if_pos (by simp), List.cons_append, List.drop_one, List.tail_cons,
        List.append_assoc, ← List.append_assoc, hu]
      simp
    · rw [hv, DecNum.toRat_neg_mant, DecNum.toRat_mk]
      norm_num

theorem parseNumber_sound (maxD : ℕ) (cs : List Char) (d : DecNum) (rest : List Char)
    (h : parseNumber maxD cs = some (d, rest)) :
    ∃ s, cs = s ++ rest ∧ NumLit maxD s d.toRat := by
  unfold parseNumber at h
  by_cases hneg : cs.head? = some '-'
  · rw [if_pos hneg] at h
    cases hu : parseUnsigned maxD (cs.drop 1) with
    | none => rw [hu] at h; exact absurd h (by simp)
    | some pr =>
      obtain ⟨u, rest'⟩ := pr
      rw [hu] at h
      simp only [Option.map_some', Option.some.injEq, Prod.mk.injEq] at h
      obtain ⟨hd, hr⟩ := h
      obtain ⟨ds, fd, hcs', hne, hle, hdsd, hfdd, hueq⟩ :=
        parseUnsigned_sound maxD (cs.drop 1) u rest' hu
      have hcons : cs = '-' :: cs.drop 1 := by
        cases cs with
        | nil => exact absurd hneg (by simp)
        | cons a t =>
          simp only [List.head?_cons, Option.some.injEq] at hneg
          simp [hneg]
      refine ⟨'-' :: (ds ++ (if fd = [] then [] else '.' :: fd)), ?_, ?_⟩
      · rw [hcons, hcs', hr]; simp
      · refine ⟨true, ds, fd, by simp, hne, hle, hdsd, hfdd, ?_⟩
        rw [← hd, hueq, DecNum.toRat_neg_mant, DecNum.toRat_mk]
        norm_num
  · rw [if_neg hneg] at h
    obtain ⟨ds, fd, hcs', hne, hle, hdsd, hfdd, hueq⟩ :=
      parseUnsigned_sound maxD cs d rest h
    refine ⟨ds ++ (if fd = [] then [] else '.' :: fd), ?_, ?_⟩
    · rw [hcs']
    · refine ⟨false, ds, fd, by simp, hne, hle, hdsd, hfdd, ?_⟩
      rw [hueq, DecNum.toRat_mk]
      norm_num

theorem headIsSep_cons (c : Char) (t : List Char) : headIsSep (c :: t) = isSep c := rfl

theorem matchLatLon_sound (q : List Char) (d1 d2 : DecNum)
    (h : matchLatLon q = some (d1, d2)) :
    ∃ s1 sep s2, trim q = s1 ++ sep ++ s2 ∧ NumLit 2 s1 d1.toRat ∧ SepRun sep ∧
      NumLit 3 s2 d2.toRat := by
  unfold matchLatLon at h
  rw [dropWhile_trim] at h
  split at h
  · exact absurd h (by simp)
  next e1 cs1 hm1 =>
    split at h
    case isTrue hsep =>
      split at h
      · exact absurd h (by simp)
      next e2 cs2 hm2 =>
        split at h
        case isTrue hend =>
          simp only [Option.some.injEq, Prod.mk.injEq] at h
          obtain ⟨he1, he2⟩ := h
          subst he1; subst he2
          obtain ⟨s1, hq1, hn1⟩ := parseNumber_sound 2 (trim q) e1 cs1 hm1
          obtain ⟨c0, t0, hcs1, hc0⟩ : ∃ c0 t0, cs1 = c0 :: t0 ∧ isSep c0 = true := by
            cases cs1 with
            | nil => exact absurd hsep (by simp [headIsSep])
            | cons a t => exact ⟨a, t, rfl, by rwa [headIsSep_cons] at hsep⟩
          obtain ⟨s2, hq2, hn2⟩ := parseNumber_sound 3 (cs1.dropWhile isSep) e2 cs2 hm2
          have hsplit : cs1.takeWhile isSep ++ cs1.dropWhile isSep = cs1 :=
            List.takeWhile_append_dropWhile isSep cs1
          have hSepRun : SepRun (cs1.takeWhile isSep) := by
            constructor
            · rw [hcs1, List.takeWhile_cons, if_pos hc0]
              simp
            · exact fun c hc => List.mem_takeWhile_imp hc
          have htrim : trim q = (s1 ++ cs1.takeWhile isSep ++ s2) ++ cs2 := by
            calc trim q = s1 ++ cs1 := hq1
            _ = s1 ++ (cs1.takeWhile isSep ++ cs1.dropWhile isSep) := by rw [hsplit]
            _ = s1 ++ (cs1.takeWhile isSep ++ (s2 ++ cs2)) := by rw [hq2]
            _ = (s1 ++ cs1.takeWhile isSep ++ s2) ++ cs2 := by simp [List.append_assoc]
          have hall : ∀ c ∈ cs2, isWs c = true := by
            rw [List.isEmpty_iff] at hend
            exact List.dropWhile_eq_nil_iff.mp hend
          have hcs2 : cs2 = [] := by
            by_contra hne2
            have hlast : (trim q).getLast? = cs2.getLast? := by
              rw [htrim]
              exact List.getLast?_append_of_ne_nil _ hne2
            have hmem : cs2.getLast hne2 ∈ cs2 := List.getLast_mem hne2
            have hwsf : isWs (cs2.getLast hne2) = false := by
              apply trim_getLast_not_ws q
              rw [hlast]
              exact (List.getLast?_eq_getLast cs2 hne2)
            rw [hall _ hmem] at hwsf
            exact absurd hwsf (by simp)
          refine ⟨s1, cs1.takeWhile isSep, s2, ?_, hn1, hSepRun, hn2⟩
          rw [htrim, hcs2, List.append_nil]
        case isFalse => exact absurd h (by simp)
    case isFalse => exact absurd h (by simp)

theorem matchLatLon_complete (q s1 sep s2 : List Char) (v1 v2 : ℚ)
    (hq : trim q = s1 ++ sep ++ s2) (h1 : NumLit 2 s1 v1) (hs : SepRun sep)
    (h2 : NumLit 3 s2 v2) :
    ∃ d1 d2 : DecNum, matchLatLon q = some (d1, d2) ∧ d1.toRat = v1 ∧ d2.toRat = v2 := by
  obtain ⟨hsne, hsall⟩ := hs
  obtain ⟨c0, t0, hsep0⟩ : ∃ c0 t0, sep = c0 :: t0 := by
    cases sep with
    | nil => exact absurd rfl hsne
    | cons a t => exact ⟨a, t, rfl⟩
  have hc0 : isSep c0 = true := hsall c0 (by rw [hsep0]; exact List.mem_cons_self _ _)
  have hbarrier : ∀ c, (sep ++ s2).head? = some c → c.isDigit = false ∧ c ≠ '.' := by
    intro c hc
    rw [hsep0] at hc
    simp only [List.cons_append, List.head?_cons, Option.some.injEq] at hc
    subst hc
    exact ⟨(isSep_spec c0 hc0).1, (isSep_spec c0 hc0).2.1⟩
  obtain ⟨d1, hp1, hv1⟩ := parseNumber_complete 2 s1 (sep ++ s2) v1 h1 hbarrier
  obtain ⟨ch, tt, hs2h, hs2sep, -, -⟩ := NumLit_head 3 s2 v2 h2
  have hdrop : (sep ++ s2).dropWhile isSep = s2 :=
    (takeWhile_dropWhile_append isSep sep s2 hsall (fun c hc => by
      rw [hs2h] at hc
      simp only [List.head?_cons, Option.some.injEq] at hc
      subst hc
      exact hs2sep)).2
  obtain ⟨d2, hp2, hv2⟩ := parseNumber_complete 3 s2 [] v2 h2 (fun c hc => by simp at hc)
  rw [List.append_nil] at hp2
  refine ⟨d1, d2, ?_, hv1, hv2⟩
  have hhsep : headIsSep (sep ++ s2) = true := by
    rw [hsep0, List.cons_append, headIsSep_cons]
    exact hc0
  unfold matchLatLon
  rw [dropWhile_trim, hq, List.append_assoc, hp1]
  simp [hhsep, hdrop, hp2]

/-! ### Claims about the input classifier -/

/-- Claim C1: the submit-path classifier (`parseLatLon`) returns a
coordinate pair exactly when the trimmed input decomposes as "optional
sign, 1-2 integer digits, optional fraction", a comma-or-space separator
run, then "optional sign, 1-3 integer digits, optional fraction", with the
parsed values satisfying `|lat| ≤ 90` and `|lon| ≤ 180`; every other
string is classified as free text (`none`). -/
theorem C1_parseLatLon_pattern_and_bounds (q : List Char) (lat lon : ℚ) :
    parseLatLonQ q = some (lat, lon) ↔
      ((∃ s1 sep s2, trim q = s1 ++ sep ++ s2 ∧ NumLit 2 s1 lat ∧ SepRun sep ∧
          NumLit 3 s2 lon) ∧ |lat| ≤ 90 ∧ |lon| ≤ 180) := by
  constructor
  · intro h
    obtain ⟨⟨d1, d2⟩, hp, hmap⟩ := Option.map_eq_some'.mp h
    simp only [Prod.mk.injEq] at hmap
    obtain ⟨hlat, hlon⟩ := hmap
    unfold parseLatLon at hp
    split at hp
    · exact absurd hp (by simp)
    next e1 e2 hm =>
      split at hp
      case isTrue => exact absurd hp (by simp)
      case isFalse hb =>
        simp only [Option.some.injEq, Prod.mk.injEq] at hp
        obtain ⟨h1, h2⟩ := hp
        subst h1; subst h2
        obtain ⟨s1, sep, s2, hq, hn1, hsr, hn2⟩ := matchLatLon_sound q e1 e2 hm
        have hb1 : ¬e1.absGt 90 = true := fun hx => hb (by simp [hx])
        have hb2 : ¬e2.absGt 180 = true := fun hx => hb (by simp [hx])
        have hle1 : |e1.toRat| ≤ 90 := by
          by_contra hgt
          push_neg at hgt
          exact hb1 ((DecNum.absGt_iff e1 90).mpr (by exact_mod_cast hgt))
        have hle2 : |e2.toRat| ≤ 180 := by
          by_contra hgt
          push_neg at hgt
          exact hb2 ((DecNum.absGt_iff e2 180).mpr (by exact_mod_cast hgt))
        exact ⟨⟨s1, sep, s2, hq, hlat ▸ hn1, hsr, hlon ▸ hn2⟩,
          hlat ▸ hle1, hlon ▸ hle2⟩
  · rintro ⟨⟨s1, sep, s2, hq, hn1, hsr, hn2⟩, hb1, hb2⟩
    obtain ⟨d1, d2, hm, hv1, hv2⟩ :=
      matchLatLon_complete q s1 sep s2 lat lon hq hn1 hsr hn2
    have hg1 : d1.absGt 90 = false := by
      rw [Bool.eq_false_iff]
      intro hx
      have hlt := (DecNum.absGt_iff d1 90).mp hx
      rw [hv1] at hlt
      exact absurd hlt (by exact_mod_cast not_lt.mpr hb1)
    have hg2 : d2.absGt 180 = false := by
      rw [Bool.eq_false_iff]
      intro hx
      have hlt := (DecNum.absGt_iff d2 180).mp hx
      rw [hv2] at hlt
      exact absurd hlt (by exact_mod_cast not_lt.mpr hb2)
    unfold parseLatLonQ parseLatLon
    rw [hm]
    simp [hg1, hg2, hv1, hv2]

/-- Witness for C1: the concrete input "27.95, -82.46" is accepted, with
the decomposition and bounds delivered by the characterization. -/
theorem C1_witness :
    (∃ s1 sep s2, trim ("27.95, -82.46".toList) = s1 ++ sep ++ s2 ∧
        NumLit 2 s1 (DecNum.toRat ⟨2795, 2⟩) ∧ SepRun sep ∧
        NumLit 3 s2 (DecNum.toRat ⟨-8246, 2⟩)) ∧
      |DecNum.toRat ⟨2795, 2⟩| ≤ 90 ∧ |DecNum.toRat ⟨-8246, 2⟩| ≤ 180 :=
  (C1_parseLatLon_pattern_and_bounds ("27.95, -82.46".toList)
      (DecNum.toRat ⟨2795, 2⟩) (DecNum.toRat ⟨-8246, 2⟩)).mp (by
    have hp : parseLatLon ("27.95, -82.46".toList) =
        some (⟨2795, 2⟩, ⟨-8246, 2⟩) := by decide
    unfold parseLatLonQ
    rw [hp]
    rfl)

/-- Counterexample to claim C2 as stated: on "99 0" the autosuggest-path
classifier (`isLatLonInput`) reports a coordinate — so autosuggest is
suppressed — while the submit-path classifier (`parseLatLon`) rejects the
same string through the bounds check and treats it as free text. -/
theorem C2_counterexample :
    isLatLonInput ("99 0".toList) = true ∧ parseLatLon ("99 0".toList) = none := by
  decide

/-- Claim C2 amended: the two paths run the same regex match, but only the
submit path applies the `|lat| ≤ 90`, `|lon| ≤ 180` bounds check.  Every
string the submit path accepts suppresses autosuggest, and whenever the
shared pattern matches, the submit path accepts exactly when the bounds
hold — so autosuggest is suppressed on a strict superset of the strings
the submit path treats as coordinates. -/
theorem C2_classifier_relation (q : List Char) :
    ((parseLatLon q).isSome = true → isLatLonInput q = true) ∧
    (∀ d1 d2, matchLatLon q = some (d1, d2) →
      (parseLatLon q = some (d1, d2) ↔ |d1.toRat| ≤ 90 ∧ |d2.toRat| ≤ 180)) := by
  constructor
  · intro h
    unfold isLatLonInput
    unfold parseLatLon at h
    split at h
    · exact absurd h (by simp)
    next e1 e2 hm => rw [hm]; rfl
  · intro d1 d2 hm
    have hpl : parseLatLon q =
        if d1.absGt 90 || d2.absGt 180 then none else some (d1, d2) := by
      unfold parseLatLon
      rw [hm]
    rw [hpl]
    by_cases hb : (d1.absGt 90 || d2.absGt 180) = true
    · rw [if_pos hb]
      constructor
      · intro h; exact absurd h (by simp)
      · rintro ⟨h1, h2⟩
        exfalso
        simp only [Bool.or_eq_true] at hb
        rcases hb with hx | hx
        · exact absurd ((DecNum.absGt_iff d1 90).mp hx) (by exact_mod_cast not_lt.mpr h1)
        · exact absurd ((DecNum.absGt_iff d2 180).mp hx) (by exact_mod_cast not_lt.mpr h2)
    · rw [if_neg hb]
      simp only [Bool.or_eq_true, not_or] at hb
      have h1 : |d1.toRat| ≤ 90 := by
        by_contra hgt
        push_neg at hgt
        exact hb.1 ((DecNum.absGt_iff d1 90).mpr (by exact_mod_cast hgt))
      have h2 : |d2.toRat| ≤ 180 := by
        by_contra hgt
        push_neg at hgt
        exact hb.2 ((DecNum.absGt_iff d2 180).mpr (by exact_mod_cast hgt))
      exact ⟨fun _ => ⟨h1, h2⟩, fun _ => rfl⟩

/-- Witness for the amended C2 at "12, 34": the shared pattern matches and
the bounds hold, so the submit path accepts. -/
theorem C2_witness :
    parseLatLon ("12, 34".toList) = some (⟨12, 0⟩, ⟨34, 0⟩) :=
  ((C2_classifier_relation ("12, 34".toList)).2 ⟨12, 0⟩ ⟨34, 0⟩ (by decide)).mpr
    (by norm_num [DecNum.toRat])

/-! ### Data model of the two service responses

Mirrors the TypeScript interfaces `GeoResult`, `CurrentWeather`,
`DailyWeather` and `WeatherResponse`.  JS numbers are modelled as `ℚ` and
strings as `List Char`.  In `DailyWeather` every parallel array except
`time` is `Option`al: the interface marks only `wind_speed_10m_max` as
optional, but `fiveDay` accesses all of them with optional chaining
(`d.weather_code?.[i]`), so the runtime shape the code tolerates has every
series possibly absent. -/

structure GeoResult where
  id : ℤ
  name : List Char
  latitude : ℚ
  longitude : ℚ
  country : Option (List Char) := none
  admin1 : Option (List Char) := none
  admin2 : Option (List Char) := none
  admin3 : Option (List Char) := none
  admin4 : Option (List Char) := none
deriving DecidableEq, Repr

structure CurrentWeather where
  temperature_2m : ℚ
  apparent_temperature : ℚ
  precipitation : ℚ
  weather_code : ℤ
  wind_speed_10m : ℚ
  relative_humidity_2m : ℚ
deriving DecidableEq, Repr

structure DailyWeather where
  time : List (List Char)
  weather_code : Option (List ℤ) := none
  temperature_2m_max : Option (List ℚ) := none
  temperature_2m_min : Option (List ℚ) := none
  precipitation_probability_max : Option (List ℚ) := none
  wind_speed_10m_max : Option (List ℚ) := none
deriving DecidableEq, Repr

structure WeatherResponse where
  latitude : ℚ
  longitude : ℚ
  timezone : Option (List Char) := none
  current : CurrentWeather
  daily : DailyWeather
deriving DecidableEq, Repr

/-- One element of the `fiveDay` result: the per-day record the component
builds (`{date, code, tmax, tmin, ppop, wmax}`); absent values are `none`. -/
structure DayEntry where
  date : List Char
  code : Option ℤ := none
  tmax : Option ℚ := none
  tmin : Option ℚ := none
  ppop : Option ℚ := none
  wmax : Option ℚ := none
deriving DecidableEq, Repr

/-- The `fiveDay` memo from the source: for a present response, map over
`daily.time` with the index, pulling each other series' element at that
index through optional chaining, then `slice(0, 5)`. -/
def fiveDay (weather : Option WeatherResponse) : List DayEntry :=
  match weather with
  | none => []
  | some w =>
    ((w.daily.time.enum.map (fun p =>
      { date := p.2,
        code := w.daily.weather_code.bind (fun a => a[p.1]?),
        tmax := w.daily.temperature_2m_max.bind (fun a => a[p.1]?),
        tmin := w.daily.temperature_2m_min.bind (fun a => a[p.1]?),
        ppop := w.daily.precipitation_probability_max.bind (fun a => a[p.1]?),
        wmax := w.daily.wind_speed_10m_max.bind (fun a => a[p.1]?) })).take 5)

/-- Specification-side description of the shaped entry at index `i`:
`date = time[i]`, and each other field taken from its parallel array at
index `i` when that array exists and has an element there, else unknown. -/
def specEntry (d : DailyWeather) (i : ℕ) : DayEntry :=
  { date := d.time.getD i [],
    code := d.weather_code.bind (fun a => a[i]?),
    tmax := d.temperature_2m_max.bind (fun a => a[i]?),
    tmin := d.temperature_2m_min.bind (fun a => a[i]?),
    ppop := d.precipitation_probability_max.bind (fun a => a[i]?),
    wmax := d.wind_speed_10m_max.bind (fun a => a[i]?) }

theorem enum_map_eq_range_map {α β : Type} (l : List α) (f : ℕ × α → β) (g : ℕ → β)
    (h : ∀ i (hi : i < l.length), f (i, l[i]) = g i) :
    l.enum.map f = (List.range l.length).map g := by
  apply List.ext_getElem
  · simp
  · intro i h1 h2
    simp only [List.getElem_map, List.getElem_enum, List.getElem_range]
    exact h i (by simpa using h2)

/-- Claim C7: shaping produces one entry per index of `time` — field by
field as `specEntry` describes — truncated to the first 5 entries in the
order of the `time` array (no re-sorting); in particular a 7-day daily
payload yields exactly 5 entries. -/
theorem C7_fiveDay_zips_first_five (w : WeatherResponse) :
    fiveDay (some w) =
      (List.range (min 5 w.daily.time.length)).map (specEntry w.daily) ∧
    (w.daily.time.length = 7 → (fiveDay (some w)).length = 5) := by
  have hmain : fiveDay (some w) =
      (List.range (min 5 w.daily.time.length)).map (specEntry w.daily) := by
    show (w.daily.time.enum.map _).take 5 = _
    rw [enum_map_eq_range_map w.daily.time _ (specEntry w.daily) ?hpt]
    · rw [← List.map_take, List.take_range]
    case hpt =>
      intro i hi
      simp [specEntry, List.getElem?_eq_getElem hi]
  refine ⟨hmain, fun h7 => ?_⟩
  rw [hmain, List.length_map, List.length_range, h7]
  omega

/-- A current-conditions record used by the concrete test inputs. -/
def cw0 : CurrentWeather :=
  { temperature_2m := 20, apparent_temperature := 19, precipitation := 0,
    weather_code := 1, wind_speed_10m := 3, relative_humidity_2m := 50 }

/-- A 7-day daily payload (all series present). -/
def daily7 : DailyWeather :=
  { time := [['d', '1'], ['d', '2'], ['d', '3'], ['d', '4'], ['d', '5'],
             ['d', '6'], ['d', '7']],
    weather_code := some [1, 2, 3, 4, 5, 6, 7],
    temperature_2m_max := some [10, 11, 12, 13, 14, 15, 16],
    temperature_2m_min := some [0, 1, 2, 3, 4, 5, 6],
    precipitation_probability_max := some [10, 20, 30, 40, 50, 60, 70],
    wind_speed_10m_max := some [2, 3, 4, 5, 6, 7, 8] }

/-- A weather response with the 7-day payload. -/
def w7 : WeatherResponse :=
  { latitude := 1, longitude := 2, timezone := none, current := cw0, daily := daily7 }

/-- Witness for C7: on the concrete 7-day payload the shaper returns
exactly 5 entries. -/
theorem C7_witness : (fiveDay (some w7)).length = 5 :=
  (C7_fiveDay_zips_first_five w7).2 rfl

/-- Claim C8: when the raw daily payload omits the `wind_speed_10m_max`
series entirely, shaping still succeeds (it is a total function) and every
produced entry has an unknown `wmax`. -/
theorem C8_windMax_absent (w : WeatherResponse)
    (h : w.daily.wind_speed_10m_max = none) :
    ∀ e ∈ fiveDay (some w), e.wmax = none := by
  intro e he
  unfold fiveDay at he
  have he' := List.mem_of_mem_take he
  obtain ⟨p, -, rfl⟩ := List.mem_map.mp he'
  simp [h]

/-- The daily payload of `daily7` with the wind series removed. -/
def dailyNoWind : DailyWeather :=
  { daily7 with wind_speed_10m_max := none }

/-- A weather response whose daily payload omits the wind series. -/
def wNoWind : WeatherResponse :=
  { latitude := 1, longitude := 2, timezone := none, current := cw0,
    daily := dailyNoWind }

/-- The first entry shaped from `wNoWind`. -/
def e0 : DayEntry :=
  { date := ['d', '1'], code := some 1, tmax := some 10, tmin := some 0,
    ppop := some 10, wmax := none }

/-- Witness for C8 at the concrete payload without the wind series: the
first produced entry exists and its `wmax` is unknown. -/
theorem C8_witness : e0 ∈ fiveDay (some wNoWind) ∧ e0.wmax = none := by
  have hmem : e0 ∈ fiveDay (some wNoWind) := by decide
  exact ⟨hmem, C8_windMax_absent wNoWind rfl e0 hmem⟩

/-! ### The stateful pipeline

The source's async handlers mutate React state cells and issue `fetch`
calls.  We model a handler as the list of primitive effects it performs —
state writes and issued requests, in program order — and obtain the final
state by folding the writes over an explicit component state.  Every
`await` is a suspension point: an async function is its pre-await effect
list followed by its post-response effect list, and interleavings of two
invocations are modelled by interleaving those segments.  Network
nondeterminism is an explicit outcome value per `fetch`. -/

/-- A network request issued by the component. -/
inductive Request where
  | geocode (name : List Char) (count : ℕ)
  | forecast (lat lon : ℚ)
deriving DecidableEq, Repr

/-- Outcome of one `fetch` call: the transport can reject (carrying the
thrown error's message), the response can arrive but fail to parse as JSON
(`res.json()` rejects with `msg`), or a parsed body arrives together with
the HTTP success flag `res.ok`. -/
inductive FetchOutcome (β : Type) where
  | transportFail (msg : List Char)
  | malformedBody (ok : Bool) (msg : List Char)
  | success (ok : Bool) (body : β)
deriving DecidableEq

/-- The component state: the `useState` cells the pipeline touches. -/
structure AppState where
  query : List Char
  loading : Bool
  error : Option (List Char)
  place : Option GeoResult
  weather : Option WeatherResponse
  suggestions : List GeoResult
deriving DecidableEq

/-- One primitive step: a `setX(...)` call or one issued network request. -/
inductive Eff where
  | setLoading (b : Bool)
  | setError (e : Option (List Char))
  | setWeather (w : Option WeatherResponse)
  | setPlace (p : Option GeoResult)
  | setSuggestions (l : List GeoResult)
  | request (r : Request)
deriving DecidableEq

/-- Apply one effect to the state (requests do not change the state). -/
def applyEff (s : AppState) : Eff → AppState
  | .setLoading b => { s with loading := b }
  | .setError e => { s with error := e }
  | .setWeather w => { s with weather := w }
  | .setPlace p => { s with place := p }
  | .setSuggestions l => { s with suggestions := l }
  | .request _ => s

/-- Run a list of effects left to right. -/
def run (s : AppState) (effs : List Eff) : AppState := effs.foldl applyEff s

/-- The message of the error thrown when geocoding has no results. -/
def noMatchMsg : List Char := "No matching locations found".toList

/-- The message of the error thrown when the forecast response is not ok. -/
def fetchFailMsg : List Char := "Failed to fetch weather".toList

/-- Three-digit zero padding for the fraction part of `toFixed(3)`. -/
def padLeft3 (s : List Char) : List Char := List.replicate (3 - s.length) '0' ++ s

/-- JS `Number.prototype.toFixed(3)` on an exact rational: round the
magnitude to the nearest thousandth (half away from zero) and print with
exactly three fraction digits. -/
def toFixed3 (v : ℚ) : List Char :=
  let k : ℤ := ⌊|v| * 1000 + 1 / 2⌋
  (if v < 0 then ['-'] else []) ++ Nat.toDigits 10 (k.toNat / 1000) ++
    '.' :: padLeft3 (Nat.toDigits 10 (k.toNat % 1000))

/-- The synthetic place `{id: 0, name: "(lat, lon)"}` with coordinates
rendered to 3 decimals, built when no chosen place is passed. -/
def synthPlace (lat lon : ℚ) : GeoResult :=
  { id := 0,
    name := '(' :: (toFixed3 lat ++ ',' :: ' ' :: toFixed3 lon ++ [')']),
    latitude := lat, longitude := lon }

/-- Effects of `resolveAndFetch` up to its `await fetch(...)`: show the
spinner, clear the error, clear the stored weather view, then issue the
forecast request. -/
def rfPre (lat lon : ℚ) : List Eff :=
  [.setLoading true, .setError none, .setWeather none,
   .request (.forecast lat lon)]

/-- Effects of `resolveAndFetch` once the forecast response arrives.  The
source checks `res.ok` before parsing, so with a non-success status it
throws "Failed to fetch weather" (even when the body would not parse); on
success it stores the whole response and the chosen (or synthetic) place;
the `finally` always clears the spinner. -/
def rfPost (lat lon : ℚ) (chosenPlace : Option GeoResult)
    (wx : FetchOutcome WeatherResponse) : List Eff :=
  match wx with
  | .transportFail msg => [.setError (some msg), .setLoading false]
  | .malformedBody ok msg =>
    if ok then [.setError (some msg), .setLoading false]
    else [.setError (some fetchFailMsg), .setLoading false]
  | .success ok body =>
    if ok then
      [.setWeather (some body),
       .setPlace (some (chosenPlace.getD (synthPlace lat lon))),
       .setLoading false]
    else [.setError (some fetchFailMsg), .setLoading false]

/-- The full effect list of one `resolveAndFetch(lat, lon, chosenPlace?)`
invocation whose forecast fetch resolves to `wx`. -/
def resolveAndFetchEffs (lat lon : ℚ) (chosenPlace : Option GeoResult)
    (wx : FetchOutcome WeatherResponse) : List Eff :=
  rfPre lat lon ++ rfPost lat lon chosenPlace wx

/-- The handler `resolveAndFetch` as a state transformer (its effects run without
interleaving). -/
def resolveAndFetch (lat lon : ℚ) (chosenPlace : Option GeoResult)
    (wx : FetchOutcome WeatherResponse) (s : AppState) : AppState :=
  run s (resolveAndFetchEffs lat lon chosenPlace wx)

/-- The access `data?.results?.[0]` on the parsed geocoding body: the first result,
when the `results` field exists and is nonempty. -/
def firstResult (body : Option (List GeoResult)) : Option GeoResult :=
  body.bind List.head?

/-- Effects of `handleSubmit` on query `q`, with geocoding outcome `geo`
and forecast outcome `wx`: clear the error; if `parseLatLon` accepts,
call `resolveAndFetch` with the parsed coordinates and return; otherwise
show the spinner and issue the geocoding request for the trimmed query
(`count=1`).  On the geocode path the HTTP status flag of `geo` is never
consulted: a parsed body with no first result throws the NotFound message
whatever the status was; transport failures and unparseable bodies
surface the thrown message; a first result feeds `resolveAndFetch`, and
the outer `finally` clears the spinner again. -/
def handleSubmitEffs (q : List Char)
    (geo : FetchOutcome (Option (List GeoResult)))
    (wx : FetchOutcome WeatherResponse) : List Eff :=
  .setError none ::
    (match parseLatLon q with
     | some (lat, lon) => resolveAndFetchEffs lat.toRat lon.toRat none wx
     | none =>
       [.setLoading true, .request (.geocode (trim q) 1)] ++
         (match geo with
          | .transportFail msg => [.setError (some msg), .setLoading false]
          | .malformedBody _ msg => [.setError (some msg), .setLoading false]
          | .success _ body =>
            match firstResult body with
            | none => [.setError (some noMatchMsg), .setLoading false]
            | some r =>
              resolveAndFetchEffs r.latitude r.longitude (some r) wx ++
                [.setLoading false]))

/-- The handler `handleSubmit` as a state transformer on the current query. -/
def handleSubmit (geo : FetchOutcome (Option (List GeoResult)))
    (wx : FetchOutcome WeatherResponse) (s : AppState) : AppState :=
  run s (handleSubmitEffs s.query geo wx)

/-- Effects of `fetchSuggestions(text)`: empty text or a pattern-matching
coordinate clears the list and returns before any request; otherwise the
suggestion request (`count=5`, un-trimmed text) is issued, a parsed body
replaces the list (`data?.results || []`, ignoring `res.ok`), and any
thrown error is swallowed — leaving all state untouched. -/
def fetchSuggestionsEffs (text : List Char)
    (geo : FetchOutcome (Option (List GeoResult))) : List Eff :=
  if text = [] ∨ isLatLonInput text = true then [.setSuggestions []]
  else
    .request (.geocode text 5) ::
      (match geo with
       | .transportFail _ => []
       | .malformedBody _ _ => []
       | .success _ body => [.setSuggestions (body.getD [])])

/-- The handler `fetchSuggestions` as a state transformer. -/
def fetchSuggestions (text : List Char)
    (geo : FetchOutcome (Option (List GeoResult))) (s : AppState) : AppState :=
  run s (fetchSuggestionsEffs text geo)

/-- A baseline state holding a fully populated weather view. -/
def s0 : AppState :=
  { query := "Tampa".toList, loading := false, error := none, place := none,
    weather := some w7, suggestions := [] }

/-! ### Claims about the pipeline -/

/-- Claim C10: every `resolveAndFetch` invocation clears the stored
weather view (`setWeather(null)`) before issuing the forecast request, so
any invocation that does not end in the success branch — transport
failure, unparseable body, or non-success status — leaves the weather
view `null` afterwards, even when a fully populated view was held before. -/
theorem C10_resolveAndFetch_clears_weather (s : AppState) (lat lon : ℚ)
    (cp : Option GeoResult) (wx : FetchOutcome WeatherResponse) :
    resolveAndFetchEffs lat lon cp wx =
      [.setLoading true, .setError none, .setWeather none,
       .request (.forecast lat lon)] ++ rfPost lat lon cp wx ∧
    ((∀ b, wx ≠ .success true b) →
      (resolveAndFetch lat lon cp wx s).weather = none) := by
  refine ⟨rfl, fun hf => ?_⟩
  cases wx with
  | transportFail msg =>
    simp [resolveAndFetch, resolveAndFetchEffs, rfPre, rfPost, run, applyEff]
  | malformedBody ok msg =>
    cases ok <;>
      simp [resolveAndFetch, resolveAndFetchEffs, rfPre, rfPost, run, applyEff]
  | success ok body =>
    cases ok with
    | false =>
      simp [resolveAndFetch, resolveAndFetchEffs, rfPre, rfPost, run, applyEff]
    | true => exact absurd rfl (hf body)

/-- Witness for C10: starting from a state with a populated view, a
transport failure of the forecast call leaves the view `null`. -/
theorem C10_witness :
    (resolveAndFetch 10 20 none (.transportFail []) s0).weather = none :=
  (C10_resolveAndFetch_clears_weather s0 10 20 none (.transportFail [])).2
    (fun _ h => FetchOutcome.noConfusion h)

/-- Claim C5: a submitted free-text query for which geocoding parses to an
empty (or absent) result set ends with the NotFound error, the spinner
off, and the stored weather view exactly as it was before the submission. -/
theorem C5_notFound_preserves_weather (s : AppState) (ok : Bool)
    (body : Option (List GeoResult)) (wx : FetchOutcome WeatherResponse)
    (hfree : parseLatLon s.query = none) (hempty : firstResult body = none) :
    (handleSubmit (.success ok body) wx s).error = some noMatchMsg ∧
    (handleSubmit (.success ok body) wx s).weather = s.weather ∧
    (handleSubmit (.success ok body) wx s).loading = false := by
  refine ⟨?_, ?_, ?_⟩ <;>
    simp [handleSubmit, handleSubmitEffs, hfree, hempty, run, applyEff]

/-- A prior state with a populated weather view and a free-text query. -/
def sParis : AppState :=
  { query := "Paris".toList, loading := true, error := none, place := none,
    weather := some w7, suggestions := [] }

/-- Witness for C5: on the concrete prior state, an empty geocoding result
set leaves `some w7` in place and sets the NotFound message. -/
theorem C5_witness :
    (handleSubmit (.success true (some [])) (.transportFail []) sParis).error =
        some noMatchMsg ∧
    (handleSubmit (.success true (some [])) (.transportFail []) sParis).weather =
        some w7 ∧
    (handleSubmit (.success true (some [])) (.transportFail []) sParis).loading =
        false := by
  have h := C5_notFound_preserves_weather sParis true (some [])
    (.transportFail []) (by decide) rfl
  exact ⟨h.1, h.2.1, h.2.2⟩

/-- Counterexample to C4 as stated: a geocoding response with a
non-success HTTP status whose body still parses (with empty results) is
surfaced as the NotFound error, not as a network error — the geocode path
never checks `res.ok`. -/
theorem C4_counterexample :
    (handleSubmit (.success false (some [])) (.transportFail []) sParis).error =
      some noMatchMsg ∧ noMatchMsg ≠ fetchFailMsg := by
  constructor
  · simp [handleSubmit, handleSubmitEffs, run, applyEff, firstResult,
      show parseLatLon (sParis.query) = none from by decide]
  · decide

/-- Claim C4 amended: on the submit path the geocoding HTTP status is
never consulted.  A transport failure or an unparseable body surfaces the
thrown message (the network-failure shape); a parsed body with no first
result throws the NotFound error whatever the status; and a parsed body
with a first result proceeds to `resolveAndFetch`, again whatever the
status. -/
theorem C4_geocode_error_classification (s : AppState) (ok : Bool)
    (body : Option (List GeoResult)) (msg m : List Char) (r : GeoResult)
    (wx : FetchOutcome WeatherResponse) (hfree : parseLatLon s.query = none) :
    (handleSubmit (.transportFail msg) wx s).error = some msg ∧
    (handleSubmit (.malformedBody ok m) wx s).error = some m ∧
    (firstResult body = none →
      (handleSubmit (.success ok body) wx s).error = some noMatchMsg) ∧
    (firstResult body = some r →
      handleSubmitEffs s.query (.success ok body) wx =
        [.setError none, .setLoading true,
         .request (.geocode (trim s.query) 1)] ++
          resolveAndFetchEffs r.latitude r.longitude (some r) wx ++
          [.setLoading false]) := by
  refine ⟨?_, ?_, fun hempty => ?_, fun hfirst => ?_⟩ <;>
    simp [handleSubmit, handleSubmitEffs, hfree, run, applyEff, *]

/-- Witness for the amended C4: with a non-success status and a parseable
empty body the NotFound error is set (the status is ignored). -/
theorem C4_witness :
    (handleSubmit (.success false (some [])) (.transportFail []) s0).error =
      some noMatchMsg :=
  (C4_geocode_error_classification s0 false (some []) [] []
      { id := 0, name := [], latitude := 0, longitude := 0 }
      (.transportFail []) (by decide)).2.2.1 rfl

/-- Claim C6 amended: `fetchSuggestions` never sets the user-visible
error (failures are silent) and never touches the loading flag or the
weather view.  The suggestion list is cleared on the short-circuit path,
and replaced from a parsed body (empty when `results` is absent or
empty); but when the call fails — transport failure or unparseable body —
the previous suggestion list is left in place, not cleared. -/
theorem C6_suggest_silent (s : AppState) (text : List Char)
    (geo : FetchOutcome (Option (List GeoResult))) :
    (fetchSuggestions text geo s).error = s.error ∧
    (fetchSuggestions text geo s).loading = s.loading ∧
    (fetchSuggestions text geo s).weather = s.weather ∧
    ((text = [] ∨ isLatLonInput text = true) →
      (fetchSuggestions text geo s).suggestions = []) ∧
    (¬(text = [] ∨ isLatLonInput text = true) →
      (fetchSuggestions text geo s).suggestions =
        (match geo with
         | .success _ body => body.getD []
         | .transportFail _ => s.suggestions
         | .malformedBody _ _ => s.suggestions)) := by
  by_cases hc : text = [] ∨ isLatLonInput text = true
  · simp [fetchSuggestions, fetchSuggestionsEffs, hc, run, applyEff]
  · cases geo <;> simp [fetchSuggestions, fetchSuggestionsEffs, hc, run, applyEff]

/-- A geocoding result used for concrete suggestion states. -/
def g0 : GeoResult := { id := 7, name := ['X'], latitude := 0, longitude := 0 }

/-- A state holding one previous suggestion. -/
def sSugg : AppState :=
  { query := "Par".toList, loading := false, error := none, place := none,
    weather := none, suggestions := [g0] }

/-- Counterexample to C6 as stated: after a failing autosuggest call the
resulting suggestion list is NOT the empty sequence — the previous
suggestions stay in place (only the silence half of the claim holds). -/
theorem C6_counterexample :
    (fetchSuggestions ("Par".toList) (.transportFail []) sSugg).suggestions =
      [g0] ∧ [g0] ≠ ([] : List GeoResult) := by
  constructor
  · decide
  · decide

/-- Witness for the amended C6: the empty-text short-circuit clears the
list without consulting the network outcome. -/
theorem C6_witness :
    (fetchSuggestions ([] : List Char) (.transportFail []) sSugg).suggestions =
      [] :=
  (C6_suggest_silent sSugg [] (.transportFail [])).2.2.2.1 (Or.inl rfl)

/-- Counterexample to C9 as stated: submitting the whitespace-only query
"  " — free text to the classifier — issues a geocoding network request;
the submit path has no empty-input short-circuit at all. -/
theorem C9_counterexample :
    parseLatLon ("  ".toList) = none ∧
    Eff.request (.geocode [] 1) ∈
      handleSubmitEffs ("  ".toList) (.transportFail []) (.transportFail []) := by
  constructor
  · decide
  · decide

/-- Claim C9 amended: only the autosuggest path short-circuits on empty
input, and only for the exactly-empty string; an explicit submission
never short-circuits — for every input the classifier treats as free text
(including the empty and whitespace-only strings) `handleSubmit` issues
the geocoding request for the trimmed query text. -/
theorem C9_submit_always_geocodes (q : List Char)
    (geo : FetchOutcome (Option (List GeoResult)))
    (wx : FetchOutcome WeatherResponse) (h : parseLatLon q = none) :
    Eff.request (.geocode (trim q) 1) ∈ handleSubmitEffs q geo wx := by
  unfold handleSubmitEffs
  rw [h]
  simp

/-- Witness for the amended C9: the whitespace-only submission " " issues
the geocoding request for the trimmed (empty) text. -/
theorem C9_witness :
    Eff.request (.geocode (trim (" ".toList)) 1) ∈
      handleSubmitEffs (" ".toList) (.transportFail []) (.transportFail []) :=
  C9_submit_always_geocodes (" ".toList) (.transportFail []) (.transportFail [])
    (by decide)

/-- Two weather responses that differ (in their reported timezone). -/
def wA : WeatherResponse :=
  { latitude := 1, longitude := 2, timezone := some ['A'], current := cw0,
    daily := daily7 }

/-- The second, distinct weather response. -/
def wB : WeatherResponse :=
  { latitude := 1, longitude := 2, timezone := some ['B'], current := cw0,
    daily := daily7 }

/-- Claim C3 (the code violates it): the source has no request token, so
a stale response overwrites a later one.  Schedule: coordinate submission
A runs up to its `await fetch` (`setError(null)` from `handleSubmit`,
then `rfPre`); submission B does the same; B's forecast response arrives
first and commits `wB`; A's response arrives afterwards and commits `wA`
unconditionally.  The final visible weather view is A's — the claim
requires B's. -/
theorem C3_stale_response_overwrites :
    (run s0 ((Eff.setError none :: rfPre 10 20) ++
        ((Eff.setError none :: rfPre 30 40) ++
          (rfPost 30 40 none (.success true wB) ++
            rfPost 10 20 none (.success true wA))))).weather = some wA ∧
      wA ≠ wB := by
  constructor
  · rfl
  · intro h
    have ht := congrArg WeatherResponse.timezone h
    simp [wA, wB] at ht

end WeatherApp
